import Mathlib

/-!
Shallow embedding of `pydantic_forms/__init__.py` (the single source module of
the repository) and proofs about its claims.

Python dictionaries over string keys are embedded as association lists in
insertion order, with `dictSet` / `dictUpdate` mirroring `dict.__setitem__`
and `dict.update`.  Python exceptions are embedded as an explicit `PyExc`
sum carried in `Except`; methods that mutate `self` are embedded as
functions returning a pair of the result (normal return or raised
exception) and the updated state.  The external validation engine
(`model_class(**data)` in `BaseForm.clean`) is a parameter of type
`Validator`.
-/

namespace PydanticForms

/-- Embedded Python values, as they appear in form data dictionaries and
widget attributes.  `Value.none` is Python `None`; booleans are kept
distinct from integers at the value level (the bool-is-an-int subtlety of
Python lives at the *type* level and is embedded in `TypeTag` below). -/
inductive Value where
  | none
  | str (s : String)
  | int (n : Int)
  | bool (b : Bool)
  deriving DecidableEq, Repr

/-- Python `str(v)` on embedded values (used by `Widget.format_value`). -/
def pyStr : Value → String
  | .none => "None"
  | .str s => s
  | .int n => toString n
  | .bool b => if b then "True" else "False"

/-- A Python `dict[str, ...]` as an association list in insertion order. -/
abbrev Dict (α : Type) := List (String × α)

/-- Python `d[k] = v`: replace in place when the key exists (position kept),
else append at the end. -/
def dictSet {α : Type} (d : Dict α) (k : String) (v : α) : Dict α :=
  match d with
  | [] => [(k, v)]
  | (k', v') :: rest => if k' = k then (k, v) :: rest else (k', v') :: dictSet rest k v

/-- Python `d.get(k)` / `k in d` lookup. -/
def dictGet {α : Type} (d : Dict α) (k : String) : Option α :=
  match d with
  | [] => Option.none
  | (k', v') :: rest => if k' = k then some v' else dictGet rest k

/-- Python `d.update(other)`: set every key of `other`, in order. -/
def dictUpdate {α : Type} (d other : Dict α) : Dict α :=
  other.foldl (fun acc kv => dictSet acc kv.1 kv.2) d

/-- Form data: `dict[str, Any]` (`DataType` in the source). -/
abbrev Data := Dict Value

/-- A pydantic `BaseModel` instance: its runtime type (for the
`isinstance` check in `BaseForm.__init__`) and its field values
(`model.dict()`). -/
structure BaseModel where
  tyTag : String
  fields : Data
  deriving DecidableEq, Repr

/-- A pydantic `ValidationError`: its `raw_errors`, each a single-field
location (`ErrorWrapper.loc_tuple()` is unpacked as a one-tuple in
`BaseForm.errors`) paired with the wrapped `PydanticValueError`, embedded
as a tag string. -/
structure VErr where
  raw : List (String × String)
  deriving DecidableEq, Repr

/-- Embedded Python exceptions.  `validation` is pydantic
`ValidationError` (the only class `BaseForm.clean` / `errors` /
`is_valid` catch); every other constructor is some non-`ValidationError`
exception. -/
inductive PyExc where
  | validation (e : VErr)
  | typeError
  | attributeError
  | keyError
  | valueError (msg : String)
  | other (tag : String)
  deriving DecidableEq, Repr

/-- The external validation engine: `model_class(**data)` either returns a
model instance or raises (a `ValidationError`, or anything else a custom
validator might raise). -/
abbrev Validator := Data → Except PyExc BaseModel

/-- A validator that only ever raises `ValidationError` (what pydantic
model construction does in the absence of exotic custom validators). -/
def OnlyValidationErrors (v : Validator) : Prop :=
  ∀ d e, v d = Except.error e → ∃ ve, e = PyExc.validation ve

/-- Field type tags for `field.type_` (see `BoundField.widget_class`). -/
inductive TypeTag where
  | bool
  | int
  | float
  | date
  | time
  | datetime
  | secretStr
  | str
  | other
  deriving DecidableEq, Repr

/-- Widget classes of the module (values of the type-to-widget
resolution). -/
inductive WidgetClass where
  | input
  | string
  | password
  | number
  | date
  | time
  | datetime
  | checkbox
  deriving DecidableEq, Repr

/-- A pydantic `ModelField` as this module consumes it: `required`,
`default` (pydantic stores `None` when no default is declared, embedded
as `Value.none`), and the `ge` / `le` attributes of a constrained numeric
`field.type_` (absent on unconstrained types). -/
structure FieldInfo where
  tyTag : TypeTag
  required : Bool
  default : Value
  ge : Option Int
  le : Option Int
  deriving DecidableEq, Repr

/-- The effective `__config__` of a form class, as the record of the
attributes the module reads from it (`model`, `prefix`, `widget_classes`,
`widget_kwargs`).  `modelTag` identifies `Config.model` for the
`isinstance` check; `fields` is `Config.model.__fields__`. -/
structure FormConfig where
  modelTag : String
  fields : Dict FieldInfo
  prefixStr : String
  widget_classes : Dict WidgetClass
  widget_kwargs : Dict (Dict Value)
  deriving DecidableEq, Repr

/-- The mutable state of a `BaseForm` instance: `self._data`,
`self._error`, `self._model`, `self._initial`, `self._model_data`. -/
structure FormState where
  _data : Option Data
  _error : Option VErr
  _model : Option BaseModel
  _initial : Option BaseModel
  _model_data : Data
  deriving DecidableEq, Repr

namespace BaseForm

/-- The `BaseForm.get_model_data`: the validated model values when bound,
else the initial values overlaid by the raw data. -/
def get_model_data (s : FormState) : Data :=
  match s._model with
  | some m => m.fields
  | none =>
    let d : Data := []
    let d := match s._initial with
      | some i => dictUpdate d i.fields
      | none => d
    match s._data with
    | some dd => dictUpdate d dd
    | none => d

/-- The `BaseForm.process_data`: the identity pre-processing hook. -/
def process_data (d : Data) : Data := d

/-- The `BaseForm.__init__`: store the arguments, reject an `initial` that is
not an instance of `Config.model`, then snapshot `self._model_data`. -/
def init (cfg : FormConfig) (data : Option Data) (initial : Option BaseModel) :
    Except PyExc FormState :=
  let checkFailed : Bool :=
    match initial with
    | some i => decide (i.tyTag ≠ cfg.modelTag)
    | none => false
  if checkFailed then
    Except.error (PyExc.valueError
      ("Initial must be of type " ++ cfg.modelTag ++ " (Config.model)"))
  else
    let s0 : FormState :=
      { _data := data, _error := none, _model := none, _initial := initial,
        _model_data := [] }
    Except.ok { s0 with _model_data := get_model_data s0 }

/-- The `BaseForm.clean`: re-raise a stored error; return when already bound;
otherwise run the validation engine, storing the model on success (and
refreshing `self._model_data`) or the `ValidationError` on failure
(re-raising it); any non-`ValidationError` exception propagates without
being stored. -/
def clean (v : Validator) (s : FormState) : Except PyExc Unit × FormState :=
  match s._error with
  | some e => (Except.error (PyExc.validation e), s)
  | none =>
  match s._model with
  | some _ => (Except.ok (), s)
  | none =>
    let data := process_data (get_model_data s)
    match v data with
    | Except.error ex =>
      match ex with
      | PyExc.validation e => (Except.error ex, { s with _error := some e })
      | _ => (Except.error ex, s)
    | Except.ok m =>
      let s1 := { s with _model := some m }
      (Except.ok (), { s1 with _model_data := get_model_data s1 })

/-- The `BaseForm.data` (the typed-value accessor): `clean`, then return
`self._model` (cast, not checked, in the source). -/
def dataProp (v : Validator) (s : FormState) :
    Except PyExc (Option BaseModel) × FormState :=
  match clean v s with
  | (Except.ok _, s') => (Except.ok s'._model, s')
  | (Except.error e, s') => (Except.error e, s')

/-- The `errors.setdefault(field, []).append(exc.exc)` step of
`BaseForm.errors`: append to the entry of key `f`, creating it at the end
when absent. -/
def addError (m : Dict (List String)) (f : String) (e : String) :
    Dict (List String) :=
  match m with
  | [] => [(f, [e])]
  | (k, es) :: rest =>
    if k = f then (k, es ++ [e]) :: rest else (k, es) :: addError rest f e

/-- The grouping loop of `BaseForm.errors` over `error.raw_errors`. -/
def groupErrors (raw : List (String × String)) : Dict (List String) :=
  raw.foldl (fun m fe => addError m fe.1 fe.2) []

/-- The `BaseForm.errors`: `clean`, returning `None` on success; a
`ValidationError` is caught and `self._error.raw_errors` regrouped by
field; anything else propagates.  (If `self._error` were `None` in the
except branch, `error.raw_errors` would raise `AttributeError`.) -/
def errors (v : Validator) (s : FormState) :
    Except PyExc (Option (Dict (List String))) × FormState :=
  match clean v s with
  | (Except.ok _, s') => (Except.ok none, s')
  | (Except.error ex, s') =>
    match ex with
    | PyExc.validation _ =>
      match s'._error with
      | some e => (Except.ok (some (groupErrors e.raw)), s')
      | none => (Except.error PyExc.attributeError, s')
    | _ => (Except.error ex, s')

/-- The `BaseForm.is_valid`: `clean`, absorbing a `ValidationError` into
`false`; anything else propagates. -/
def is_valid (v : Validator) (s : FormState) : Except PyExc Bool × FormState :=
  match clean v s with
  | (Except.ok _, s') => (Except.ok true, s')
  | (Except.error ex, s') =>
    match ex with
    | PyExc.validation _ => (Except.ok false, s')
    | _ => (Except.error ex, s')

/-- The `BaseForm.value_of`: `self._model_data.get(field, default)` where the
default expression `self.__config__.model.__fields__[field].default` is
evaluated first and raises `KeyError` on an undeclared field. -/
def value_of (cfg : FormConfig) (s : FormState) (field : String) :
    Except PyExc Value :=
  match dictGet cfg.fields field with
  | none => Except.error PyExc.keyError
  | some fi => Except.ok ((dictGet s._model_data field).getD fi.default)

end BaseForm

namespace Widget

/-- The `Widget.format_value`: empty string for `None`, else `str(value)`. -/
def format_value (value : Value) : String :=
  match value with
  | Value.none => ""
  | v => pyStr v

end Widget

/-- A `Number` widget instance with its pydantic fields, in declaration
order (`name` … `placeholder` from `Widget`, `type` / `list` from
`Input`, `min` / `max` / `step` from `Number`; the unannotated
`type = "number"` replaces the inherited default, per pydantic v1
`ModelField.infer` on an existing field). -/
structure Number where
  name : Value
  id : Value := Value.none
  value : Value := Value.none
  required : Value := Value.bool false
  class_ : Value := Value.none
  autofocus : Value := Value.bool false
  autocomplete : Value := Value.none
  placeholder : Value := Value.none
  type : Value := Value.str "number"
  list : Value := Value.none
  min : Value := Value.none
  max : Value := Value.none
  step : Value := Value.none
  deriving DecidableEq, Repr

namespace Number

/-- The `Number.additional_kwargs`: copy the `ge` / `le` attributes of the
constrained field type, stringified, into `min` / `max`; leave each out
when the attribute is absent. -/
def additional_kwargs (fi : FieldInfo) : Dict Value :=
  let kwargs : Dict Value := []
  let kwargs := match fi.ge with
    | some g => dictSet kwargs "min" (Value.str (pyStr (Value.int g)))
    | none => kwargs
  match fi.le with
  | some l => dictSet kwargs "max" (Value.str (pyStr (Value.int l)))
  | none => kwargs

/-- Construction `Number(**kwargs)`: every field takes the keyword value
when supplied, else its declared default. -/
def ofKwargs (kw : Dict Value) : Number :=
  { name := (dictGet kw "name").getD Value.none,
    id := (dictGet kw "id").getD Value.none,
    value := (dictGet kw "value").getD Value.none,
    required := (dictGet kw "required").getD (Value.bool false),
    class_ := (dictGet kw "class").getD Value.none,
    autofocus := (dictGet kw "autofocus").getD (Value.bool false),
    autocomplete := (dictGet kw "autocomplete").getD Value.none,
    placeholder := (dictGet kw "placeholder").getD Value.none,
    type := (dictGet kw "type").getD (Value.str "number"),
    list := (dictGet kw "list").getD Value.none,
    min := (dictGet kw "min").getD Value.none,
    max := (dictGet kw "max").getD Value.none,
    step := (dictGet kw "step").getD Value.none }

/-- The `self.dict()` on a `Number` instance: all pydantic fields in
declaration order. -/
def toDict (w : Number) : Dict Value :=
  [("name", w.name), ("id", w.id), ("value", w.value),
   ("required", w.required), ("class_", w.class_),
   ("autofocus", w.autofocus), ("autocomplete", w.autocomplete),
   ("placeholder", w.placeholder), ("type", w.type), ("list", w.list),
   ("min", w.min), ("max", w.max), ("step", w.step)]

/-- The `Widget.attrs` on a `Number` instance: the `dict()` entries outside
`__exclude_attrs__ = {"class_", "value"}`, overlaid with the `class` and
formatted `value` entries. -/
def attrs (w : Number) : Dict Value :=
  dictUpdate
    ((toDict w).filter (fun kv => (kv.1 != "class_") && (kv.1 != "value")))
    [("class", w.class_), ("value", Value.str (Widget.format_value w.value))]

end Number

namespace StringRenderer

/-- The filter of `StringRenderer.render_attrs`: an attribute appears in
the rendered output iff its value is not `None` and not `False`. -/
def presentAttrs (attrs : Dict Value) : Dict Value :=
  attrs.filter (fun kv => (kv.2 != Value.none) && (kv.2 != Value.bool false))

end StringRenderer

namespace BoundField

/-- Python `issubclass(field.type_, bool)` on type tags. -/
def isSubclassBool (t : TypeTag) : Bool := t == TypeTag.bool

/-- Python `issubclass(field.type_, (int, float))`: `bool` is a subclass
of `int` in Python, and constrained numeric types are subclasses of
`int` / `float`. -/
def isSubclassIntFloat (t : TypeTag) : Bool :=
  t == TypeTag.bool || t == TypeTag.int || t == TypeTag.float

/-- Python `issubclass(field.type_, types.SecretStr)`. -/
def isSubclassSecretStr (t : TypeTag) : Bool := t == TypeTag.secretStr

/-- The `BoundField.widget_class`: the per-field override in
`__config__.widget_classes` when present, else the `issubclass` /
equality chain over `field.type_`, in source order. -/
def widget_class (cfg : FormConfig) (fieldName : String) (fi : FieldInfo) :
    WidgetClass :=
  match dictGet cfg.widget_classes fieldName with
  | some wc => wc
  | none =>
    if isSubclassBool fi.tyTag then WidgetClass.checkbox
    else if isSubclassIntFloat fi.tyTag then WidgetClass.number
    else if fi.tyTag == TypeTag.date then WidgetClass.date
    else if fi.tyTag == TypeTag.time then WidgetClass.time
    else if fi.tyTag == TypeTag.datetime then WidgetClass.datetime
    else if isSubclassSecretStr fi.tyTag then WidgetClass.password
    else WidgetClass.input

/-- The `widget_class.additional_kwargs(field)` dispatch: `Number` adds
`min` / `max`; the base `Widget.additional_kwargs` returns `{}`. -/
def additional_kwargs (wc : WidgetClass) (fi : FieldInfo) : Dict Value :=
  match wc with
  | WidgetClass.number => Number.additional_kwargs fi
  | _ => []

/-- The `Form.prefix_name`: `f"{self.__config__.prefix}{name}"`. -/
def prefix_name (cfg : FormConfig) (name : String) : String :=
  cfg.prefixStr ++ name

/-- The `BoundField.widget_kwargs`: the literal `name` / `id` / `required` /
`value` dictionary, updated with the widget class extras and then the
per-field `__config__.widget_kwargs` entry. -/
def widget_kwargs (cfg : FormConfig) (s : FormState) (wc : WidgetClass)
    (fieldName : String) (fi : FieldInfo) : Except PyExc (Dict Value) :=
  let name := prefix_name cfg fieldName
  match BaseForm.value_of cfg s fieldName with
  | Except.error e => Except.error e
  | Except.ok v =>
    let kwargs : Dict Value :=
      [("name", Value.str name), ("id", Value.str ("id_" ++ name)),
       ("required", Value.bool fi.required), ("value", v)]
    let kwargs := dictUpdate kwargs (additional_kwargs wc fi)
    let kwargs := dictUpdate kwargs ((dictGet cfg.widget_kwargs fieldName).getD [])
    Except.ok kwargs

end BoundField

/-- A constructed widget instance, as the widget class together with the
keyword arguments it was constructed from. -/
structure WidgetInst where
  cls : WidgetClass
  kwargs : Dict Value
  deriving DecidableEq, Repr

/-- A `BoundField` object.  `ident` is a creation stamp standing in for
Python object identity (each construction uses a fresh stamp);
`widgetCache` is the `cached_property` slot of `BoundField.widget`. -/
structure BF where
  ident : Nat
  fieldName : String
  widgetCache : Option WidgetInst
  deriving DecidableEq, Repr

/-- The state of a `Form` instance: the inherited `BaseForm` state, the
`@cache` table of `bind_field` for this instance, and the next identity
stamp. -/
structure FState where
  form : FormState
  bound : Dict BF
  counter : Nat
  deriving DecidableEq, Repr

namespace Form

/-- The `Form.bind_field` under `@cache`: a cache hit returns the stored
`BoundField` without running the body; otherwise the body runs —
`clean()`, the `__fields__[name]` lookup (a `KeyError` on an undeclared
name), construction — and the result is cached.  Exceptions are not
cached. -/
def bind_field (v : Validator) (cfg : FormConfig) (st : FState)
    (name : String) : Except PyExc BF × FState :=
  match dictGet st.bound name with
  | some bf => (Except.ok bf, st)
  | none =>
    let (r, f') := BaseForm.clean v st.form
    let st := { st with form := f' }
    match r with
    | Except.error e => (Except.error e, st)
    | Except.ok _ =>
      match dictGet cfg.fields name with
      | none => (Except.error PyExc.keyError, st)
      | some _ =>
        let bf : BF := { ident := st.counter, fieldName := name,
                         widgetCache := none }
        (Except.ok bf,
         { st with bound := dictSet st.bound name bf,
                   counter := st.counter + 1 })

/-- The `BoundField.widget` (a `cached_property`) on the cached bound field
for `name`: a filled slot is returned as is; an empty slot computes the
widget class and keyword arguments from the current form state,
constructs the widget, and stores it on the bound field. -/
def widget_of (cfg : FormConfig) (st : FState) (name : String) :
    Except PyExc WidgetInst × FState :=
  match dictGet st.bound name with
  | none => (Except.error PyExc.attributeError, st)
  | some bf =>
    match bf.widgetCache with
    | some w => (Except.ok w, st)
    | none =>
      match dictGet cfg.fields name with
      | none => (Except.error PyExc.keyError, st)
      | some fi =>
        let wc := BoundField.widget_class cfg name fi
        match BoundField.widget_kwargs cfg st.form wc name fi with
        | Except.error e => (Except.error e, st)
        | Except.ok kw =>
          let w : WidgetInst := { cls := wc, kwargs := kw }
          (Except.ok w,
           { st with bound := dictSet st.bound name
                       { bf with widgetCache := some w } })

/-- A later mutation of the underlying raw data (`form._data = d`). -/
def set_data (st : FState) (d : Data) : FState :=
  { st with form := { st.form with _data := some d } }

/-- The `BoundField.value`: `self.form.value_of(self.field.name)`. -/
def bound_value (cfg : FormConfig) (st : FState) (name : String) :
    Except PyExc Value :=
  BaseForm.value_of cfg st.form name

end Form

namespace ConfigModel

/-- One class namespace of configuration attributes (attribute name to an
opaque attribute value). -/
abbrev ConfigLayer := Dict String

/-- A configuration class as the ordered list of attribute namespaces an
attribute lookup walks (its method resolution order).  Repeated empty
tail layers of the Python linearization are kept as written; they bind
nothing, so attribute lookup is unaffected. -/
abbrev ConfigClass := List ConfigLayer

/-- Python attribute lookup along the class layers. -/
def classAttr : ConfigClass → String → Option String
  | [], _ => none
  | l :: rest, k =>
    match dictGet l k with
    | some v => some v
    | none => classAttr rest k

/-- The `inherit_config`: a fresh empty class over `(self,)` when the two
are the same class, else over `(self, parent)` — so lookups see the self
layers before the parent layers. -/
def inherit_config (self_config parent_config : ConfigClass) : ConfigClass :=
  if self_config = parent_config then self_config
  else self_config ++ parent_config

/-- The `BaseConfig` as a class: one namespace layer binding nothing
(`model` is declared by annotation only, with no value). -/
def BaseConfigClass : ConfigClass := [[]]

/-- The namespace of `Form.Config` (which extends `BaseConfig`):
`prefix = ""`, default renderer, empty override maps. -/
def FormConfigLayer : ConfigLayer :=
  [("prefix", ""), ("renderer", "StringRenderer()"),
   ("widget_classes", "\x7b\x7d"), ("widget_kwargs", "\x7b\x7d")]

/-- The `Form.Config` class: its own namespace over `BaseConfig`. -/
def FormConfigClass : ConfigClass := [FormConfigLayer, []]

/-- A form class definition: the library class `Form` itself, or a
single-inheritance subclass with an optional `Config` namespace (a plain
class whose only layer is the declared attributes). -/
inductive FormDef where
  | form
  | derive (parent : FormDef) (decl : Option ConfigLayer)

/-- The `FormMetaclass.__new__` computing `__config__`: start from
`BaseConfig`; fold `inherit_config(base.__config__, config)` over the
bases that are proper `BaseForm` subclasses (for `Form` itself the only
base is `BaseForm`, which is skipped); finally fold in the `Config`
namespace when one is declared. -/
def effConfig : FormDef → ConfigClass
  | FormDef.form => inherit_config FormConfigClass BaseConfigClass
  | FormDef.derive p decl =>
    let config := BaseConfigClass
    let config := inherit_config (effConfig p) config
    match decl with
    | some d => inherit_config [d] config
    | none => config

/-- The effective `Config.prefix` of a form class. -/
def prefixAttr (f : FormDef) : Option String :=
  classAttr (effConfig f) "prefix"

end ConfigModel

/-- A Python `datetime.datetime` value (`date` / `time` values use the
relevant components). -/
structure PyDateTime where
  year : Nat
  month : Nat
  day : Nat
  hour : Nat
  minute : Nat
  second : Nat
  deriving DecidableEq, Repr

/-- Zero-padding to two digits, as `%m` / `%d` / `%H` / `%M` / `%S`. -/
def pad2 (n : Nat) : String :=
  if n < 10 then "0" ++ toString n else toString n

/-- Zero-padding to four digits, as `%Y`. -/
def pad4 (n : Nat) : String :=
  if n < 10 then "000" ++ toString n
  else if n < 100 then "00" ++ toString n
  else if n < 1000 then "0" ++ toString n
  else toString n

/-- One `strftime` directive (the module only uses these six). -/
def directive (d : PyDateTime) (c : Char) : String :=
  if c = 'Y' then pad4 d.year
  else if c = 'm' then pad2 d.month
  else if c = 'd' then pad2 d.day
  else if c = 'H' then pad2 d.hour
  else if c = 'M' then pad2 d.minute
  else if c = 'S' then pad2 d.second
  else String.singleton '%' ++ String.singleton c

/-- The `strftime` over the characters of a format string: a directive after
each percent sign, every other character literal. -/
def strftimeChars (d : PyDateTime) : List Char → String
  | [] => ""
  | '%' :: c :: rest => directive d c ++ strftimeChars d rest
  | c :: rest => String.singleton c ++ strftimeChars d rest

/-- The `value.strftime(fmt)` on a format string. -/
def strftimeStr (d : PyDateTime) (fmt : String) : String :=
  strftimeChars d fmt.data

/-- The argument handed to `.strftime(...)`: a format string, or — as in
the source of `StrftimeMixin.format_value`, where the bare name `format`
resolves to the Python builtin function `format`, not to `self.format` —
the builtin function object itself. -/
inductive StrfArg where
  | str (s : String)
  | builtinFormat
  deriving DecidableEq, Repr

/-- The `datetime.strftime` checks its argument is a string: called with the
builtin `format` function it raises `TypeError`. -/
def strftime (d : PyDateTime) (arg : StrfArg) : Except PyExc String :=
  match arg with
  | StrfArg.str s => Except.ok (strftimeStr d s)
  | StrfArg.builtinFormat => Except.error PyExc.typeError

namespace StrftimeMixin

/-- The `StrftimeMixin.format_value(self, value)`: empty string when the
*argument* is `None`; otherwise `self.value.strftime(format)` — on
`self.value`, not the argument, and with the builtin `format` function
as the format argument. -/
def format_value (self_value : Option PyDateTime)
    (value : Option PyDateTime) : Except PyExc String :=
  match value with
  | none => Except.ok ""
  | some _ =>
    match self_value with
    | none => Except.error PyExc.attributeError
    | some d => strftime d StrfArg.builtinFormat

end StrftimeMixin

namespace Date

/-- The declared format of the `Date` widget. -/
def format : String := "%Y-%m-%d"

end Date

namespace Time

/-- The declared format of the `Time` widget. -/
def format : String := "%H:%M:%S"

end Time

namespace DateTime

/-- The declared format of the `DateTime` widget, exactly as written in
the source (an opening brace where a colon was presumably intended). -/
def format : String := "%Y-%m-%dT%H\x7b%M:%S"

end DateTime

/-- First-occurrence-order deduplication of a key list (used by the
spec-side description of error grouping). -/
def dedupKeys (ks : List String) : List String :=
  ks.foldl (fun acc k => if k ∈ acc then acc else acc ++ [k]) []

/-- Spec-side description of the error regrouping: "a mapping from field
name to the ordered list of violations for that field (a field may have
more than one, insertion order preserved; ... if the validation engine
were to report the same field twice, they are merged into one ordered
list rather than overwriting)".  Each field name, in order of first
report, maps to all of its violations in report order.  Compared against
the implementation-side `BaseForm.groupErrors`. -/
def groupErrorsSpec (raw : List (String × String)) : Dict (List String) :=
  (dedupKeys (raw.map Prod.fst)).map
    (fun f => (f, (raw.filter (fun p => p.1 == f)).map Prod.snd))

/-- The `k` attribute of the number widget a bound field produces: build
the keyword arguments, construct `Number(**kwargs)`, take `attrs()[k]`
(`none` when the key is absent from the attribute dictionary). -/
def number_attr (cfg : FormConfig) (s : FormState) (fieldName : String)
    (fi : FieldInfo) (k : String) : Except PyExc (Option Value) :=
  match BoundField.widget_kwargs cfg s WidgetClass.number fieldName fi with
  | Except.error e => Except.error e
  | Except.ok kw => Except.ok (dictGet (Number.attrs (Number.ofKwargs kw)) k)

/-- The keys the string renderer would emit for the number widget a
bound field produces (attributes with value `None` or `False` are
dropped by `StringRenderer.render_attrs`). -/
def number_rendered_keys (cfg : FormConfig) (s : FormState)
    (fieldName : String) (fi : FieldInfo) : Except PyExc (List String) :=
  match BoundField.widget_kwargs cfg s WidgetClass.number fieldName fi with
  | Except.error e => Except.error e
  | Except.ok kw =>
    Except.ok ((StringRenderer.presentAttrs
      (Number.attrs (Number.ofKwargs kw))).map Prod.fst)

/-! Concrete instances used by the witness theorems. -/

/-- A one-violation `ValidationError`. -/
def errAge : VErr := { raw := [("age", "range")] }

/-- A `ValidationError` reporting the same field twice, with another
field in between. -/
def dupErr : VErr := { raw := [("age", "range"), ("name", "required"), ("age", "min")] }

/-- A validation engine that always rejects with `errAge`. -/
def failValidator : Validator := fun _ => Except.error (PyExc.validation errAge)

/-- A validation engine that always rejects with `dupErr`. -/
def dupValidator : Validator := fun _ => Except.error (PyExc.validation dupErr)

/-- A validation engine that always accepts, echoing the data. -/
def okValidator : Validator := fun d => Except.ok { tyTag := "M", fields := d }

/-- A validation engine that raises a non-`ValidationError`. -/
def rendererExploded : Validator := fun _ => Except.error (PyExc.other "RuntimeError")

/-- An unbound form state holding raw data `{"age": 200}`. -/
def s0 : FormState :=
  { _data := some [("age", Value.int 200)], _error := none, _model := none,
    _initial := none, _model_data := [("age", Value.int 200)] }

/-- The `s0` after a failed validation through `failValidator`. -/
def s0fail : FormState := { s0 with _error := some errAge }

/-- The `s0` after a failed validation through `dupValidator`. -/
def s0dup : FormState := { s0 with _error := some dupErr }

/-- The model `okValidator` produces from `s0`. -/
def mdl0 : BaseModel := { tyTag := "M", fields := [("age", Value.int 200)] }

/-- The `s0` after a successful validation through `okValidator`. -/
def s0ok : FormState :=
  { _data := some [("age", Value.int 200)], _error := none,
    _model := some mdl0, _initial := none,
    _model_data := [("age", Value.int 200)] }

/-- An integer field with inclusive bounds 0 and 120. -/
def ageField : FieldInfo :=
  { tyTag := TypeTag.int, required := true, default := Value.none,
    ge := some 0, le := some 120 }

/-- A plain string field with no bounds and no declared default. -/
def nameField : FieldInfo :=
  { tyTag := TypeTag.str, required := false, default := Value.none,
    ge := none, le := none }

/-- A boolean field. -/
def activeField : FieldInfo :=
  { tyTag := TypeTag.bool, required := false, default := Value.bool false,
    ge := none, le := none }

/-- An effective configuration with model `M`, fields `age` / `name` /
`active`, prefix `f_`, and no overrides. -/
def cfg1 : FormConfig :=
  { modelTag := "M",
    fields := [("age", ageField), ("name", nameField), ("active", activeField)],
    prefixStr := "f_", widget_classes := [], widget_kwargs := [] }

/-- The `cfg1` with an explicit `Checkbox` override for the integer field
`age`. -/
def cfgOverride : FormConfig :=
  { cfg1 with widget_classes := [("age", WidgetClass.checkbox)] }

/-- A fresh `Form` state over `s0`. -/
def st0 : FState := { form := s0, bound := [], counter := 0 }

/-- The bound field the first `bind_field("age")` on `st0` constructs. -/
def bf0 : BF := { ident := 0, fieldName := "age", widgetCache := none }

/-- The `st0` after `bind_field("age")` under `okValidator`. -/
def st1 : FState := { form := s0ok, bound := [("age", bf0)], counter := 1 }

/-- An initial value of the wrong runtime type. -/
def badInitial : BaseModel := { tyTag := "N", fields := [] }

/-- A concrete datetime value, 2020-01-02 03:04:05. -/
def dt0 : PyDateTime :=
  { year := 2020, month := 1, day := 2, hour := 3, minute := 4, second := 5 }

namespace ConfigModel

/-- The declared `Config` namespace of form class `A`:
`prefix = "a_"` plus one further key. -/
def aLayer : ConfigLayer := [("prefix", "a_"), ("extra", "A")]

/-- Form class `A`, extending `Form` with `aLayer` as its `Config`. -/
def formA : FormDef := FormDef.derive FormDef.form (some aLayer)

/-- Form class `B` extending `A` without declaring a `Config`. -/
def formBNoOverride : FormDef := FormDef.derive formA none

/-- Form class `B` extending `A` with `Config.prefix = "b_"`. -/
def formBOverride : FormDef :=
  FormDef.derive formA (some [("prefix", "b_")])

end ConfigModel

/-! Theorems.  First a few shared helper lemmas about `clean`. -/

/-- The `clean` on a form with a stored error re-raises it, unchanged. -/
theorem clean_of_error (v : Validator) (s : FormState) (e : VErr)
    (h : s._error = some e) :
    BaseForm.clean v s = (Except.error (PyExc.validation e), s) := by
  simp [BaseForm.clean, h]

/-- The `clean` on a form with a stored model and no stored error returns at
once, unchanged. -/
theorem clean_of_model (v : Validator) (s : FormState) (m : BaseModel)
    (hE : s._error = none) (hM : s._model = some m) :
    BaseForm.clean v s = (Except.ok (), s) := by
  simp [BaseForm.clean, hE, hM]

/-- C1: on an unbound form (no stored error, no stored model), once
`clean` — the body of `validate()` — has run to a terminal outcome, the
memo is in exactly one of the resolved-valid / resolved-invalid states,
and every later call to `clean`, and to the accessors `data` /
`errors` / `is_valid` that run through it, returns or raises the same
stored outcome with the state unchanged; the results no longer depend on
the validation engine at all (they are the same for every validator
`v'`), so no further validation work is performed and the memo never
returns to unbound. -/
theorem clean_memo_idempotent (v : Validator) (s : FormState)
    (hE : s._error = none) (hM : s._model = none)
    (hv : OnlyValidationErrors v)
    (r₁ : Except PyExc Unit) (s₁ : FormState)
    (hrun : BaseForm.clean v s = (r₁, s₁)) :
    (∀ v' : Validator, BaseForm.clean v' s₁ = (r₁, s₁))
    ∧ ((∃ m, s₁._model = some m ∧ s₁._error = none)
        ∨ (∃ e, s₁._error = some e ∧ s₁._model = none))
    ∧ (∀ v' : Validator, BaseForm.dataProp v' s₁ = BaseForm.dataProp v s₁
        ∧ (BaseForm.dataProp v' s₁).2 = s₁)
    ∧ (∀ v' : Validator, BaseForm.errors v' s₁ = BaseForm.errors v s₁
        ∧ (BaseForm.errors v' s₁).2 = s₁)
    ∧ (∀ v' : Validator, BaseForm.is_valid v' s₁ = BaseForm.is_valid v s₁
        ∧ (BaseForm.is_valid v' s₁).2 = s₁) := by
  cases hval : v (BaseForm.process_data (BaseForm.get_model_data s)) with
  | ok m =>
    simp only [BaseForm.clean, hE, hM, hval, Prod.mk.injEq] at hrun
    obtain ⟨hr, hs⟩ := hrun
    subst hr
    have h1 : s₁._error = none := by rw [← hs]
    have h2 : s₁._model = some m := by rw [← hs]
    have hstable : ∀ v' : Validator,
        BaseForm.clean v' s₁ = (Except.ok (), s₁) :=
      fun v' => clean_of_model v' s₁ m h1 h2
    refine ⟨hstable, Or.inl ⟨m, h2, h1⟩, ?_, ?_, ?_⟩
    · intro v'
      simp [BaseForm.dataProp, hstable v', hstable v]
    · intro v'
      simp [BaseForm.errors, hstable v', hstable v]
    · intro v'
      simp [BaseForm.is_valid, hstable v', hstable v]
  | error ex =>
    obtain ⟨ve, rfl⟩ := hv _ _ hval
    simp only [BaseForm.clean, hE, hM, hval, Prod.mk.injEq] at hrun
    obtain ⟨hr, hs⟩ := hrun
    subst hr
    have h1 : s₁._error = some ve := by rw [← hs]
    have h2 : s₁._model = none := by rw [← hs]
    have hstable : ∀ v' : Validator,
        BaseForm.clean v' s₁ = (Except.error (PyExc.validation ve), s₁) :=
      fun v' => clean_of_error v' s₁ ve h1
    refine ⟨hstable, Or.inr ⟨ve, h1, h2⟩, ?_, ?_, ?_⟩
    · intro v'
      simp [BaseForm.dataProp, hstable v', hstable v]
    · intro v'
      simp [BaseForm.errors, hstable v', hstable v, h1]
    · intro v'
      simp [BaseForm.is_valid, hstable v', hstable v]

/-- C1 witness: after `failValidator` rejects `s0` once, a later
`clean` under a different validator re-raises the stored outcome and
leaves the state alone. -/
theorem clean_memo_idempotent_witness :
    BaseForm.clean okValidator s0fail
      = (Except.error (PyExc.validation errAge), s0fail) :=
  (clean_memo_idempotent failValidator s0 rfl rfl
      (fun _ e h => ⟨errAge, by
        simp only [failValidator, Except.error.injEq] at h
        exact h.symm⟩)
      (Except.error (PyExc.validation errAge)) s0fail rfl).1 okValidator

/-- When `clean` raises a `ValidationError`, that error is stored in the
resulting state, and it came either from the store or from the
validation engine. -/
theorem clean_validation_cases (v : Validator) (s : FormState) (e : VErr)
    (s' : FormState)
    (h : BaseForm.clean v s = (Except.error (PyExc.validation e), s')) :
    s'._error = some e
    ∧ (s._error = some e
       ∨ v (BaseForm.process_data (BaseForm.get_model_data s))
           = Except.error (PyExc.validation e)) := by
  cases hE : s._error with
  | some e0 =>
    simp only [BaseForm.clean, hE, Prod.mk.injEq, Except.error.injEq,
      PyExc.validation.injEq] at h
    obtain ⟨h1, h2⟩ := h
    simp_all
  | none =>
    cases hM : s._model with
    | some m => simp [BaseForm.clean, hE, hM] at h
    | none =>
      cases hval : v (BaseForm.process_data (BaseForm.get_model_data s)) with
      | ok m => simp [BaseForm.clean, hE, hM, hval] at h
      | error ex =>
        cases ex
        case validation ve =>
          simp only [BaseForm.clean, hE, hM, hval, Prod.mk.injEq,
            Except.error.injEq, PyExc.validation.injEq] at h
          obtain ⟨h1, h2⟩ := h
          subst h1
          refine ⟨?_, Or.inr rfl⟩
          rw [← h2]
        all_goals simp [BaseForm.clean, hE, hM, hval] at h
/-- The `setdefault(...).append(...)` never empties the accumulator. -/
theorem addError_ne_nil (m : Dict (List String)) (f e : String) :
    BaseForm.addError m f e ≠ [] := by
  cases m with
  | nil => simp [BaseForm.addError]
  | cons p rest =>
    obtain ⟨k, es⟩ := p
    simp only [BaseForm.addError]
    split <;> simp

/-- The grouping fold keeps a non-empty accumulator non-empty. -/
theorem foldl_addError_ne_nil (l : List (String × String))
    (m : Dict (List String)) (hm : m ≠ []) :
    l.foldl (fun m fe => BaseForm.addError m fe.1 fe.2) m ≠ [] := by
  induction l generalizing m with
  | nil => exact hm
  | cons x xs ih => exact ih _ (addError_ne_nil _ _ _)

/-- Grouping a non-empty violation list gives a non-empty mapping. -/
theorem groupErrors_ne_nil (l : List (String × String)) (h : l ≠ []) :
    BaseForm.groupErrors l ≠ [] := by
  cases l with
  | nil => exact absurd rfl h
  | cons x xs =>
    simp only [BaseForm.groupErrors, List.foldl_cons]
    exact foldl_addError_ne_nil xs _ (addError_ne_nil [] x.1 x.2)

/-- C4: against any validation engine whose violation sets are
non-empty (as in pydantic), `is_valid` answers `true` exactly when
`errors` answers "no errors" (`None`): a returned error mapping is
always non-empty and comes with `is_valid` answering `false`, and
`is_valid` answering `false` always comes with a non-empty error
mapping. -/
theorem is_valid_iff_errors_empty (v : Validator) (s : FormState)
    (hs : ∀ e, s._error = some e → e.raw ≠ [])
    (hv : ∀ d e, v d = Except.error (PyExc.validation e) → e.raw ≠ []) :
    ((BaseForm.is_valid v s).1 = Except.ok true
       ↔ (BaseForm.errors v s).1 = Except.ok none)
    ∧ (∀ es, (BaseForm.errors v s).1 = Except.ok (some es) →
        (BaseForm.is_valid v s).1 = Except.ok false ∧ es ≠ [])
    ∧ ((BaseForm.is_valid v s).1 = Except.ok false →
        ∃ es, (BaseForm.errors v s).1 = Except.ok (some es) ∧ es ≠ []) := by
  rcases hcl : BaseForm.clean v s with ⟨r, s'⟩
  cases r with
  | ok u =>
    simp [BaseForm.is_valid, BaseForm.errors, hcl]
  | error ex =>
    cases ex
    case validation e =>
      have hst := (clean_validation_cases v s e s' hcl).1
      have hne : e.raw ≠ [] := by
        rcases (clean_validation_cases v s e s' hcl).2 with h | h
        · exact hs e h
        · exact hv _ e h
      have hgne := groupErrors_ne_nil e.raw hne
      refine ⟨by simp [BaseForm.is_valid, BaseForm.errors, hcl, hst], ?_, ?_⟩
      · intro es hes
        simp only [BaseForm.errors, hcl, hst, Except.ok.injEq,
          Option.some.injEq] at hes
        exact ⟨by simp [BaseForm.is_valid, hcl], hes ▸ hgne⟩
      · intro _
        exact ⟨BaseForm.groupErrors e.raw,
          by simp [BaseForm.errors, hcl, hst], hgne⟩
    all_goals simp [BaseForm.is_valid, BaseForm.errors, hcl]

/-- C4 witness: `failValidator` rejects `s0`, so `errors` returns a
non-empty mapping. -/
theorem is_valid_iff_errors_empty_witness :
    ∃ es, (BaseForm.errors failValidator s0).1 = Except.ok (some es) ∧ es ≠ [] :=
  (is_valid_iff_errors_empty failValidator s0
      (fun _ h => Option.noConfusion h)
      (fun _ e h => by
        simp only [failValidator, Except.error.injEq,
          PyExc.validation.injEq] at h
        rw [← h]
        decide)).2.2 rfl

/-- Membership in the first-occurrence deduplication fold. -/
theorem mem_dedup_foldl (ks : List String) (acc : List String) (x : String) :
    x ∈ ks.foldl (fun acc k => if k ∈ acc then acc else acc ++ [k]) acc
      ↔ x ∈ acc ∨ x ∈ ks := by
  induction ks generalizing acc with
  | nil => simp
  | cons k rest ih =>
    rw [List.foldl_cons, ih]
    by_cases hk : k ∈ acc
    · simp only [if_pos hk, List.mem_cons]
      constructor
      · rintro (h | h)
        · exact Or.inl h
        · exact Or.inr (Or.inr h)
      · rintro (h | rfl | h)
        · exact Or.inl h
        · exact Or.inl hk
        · exact Or.inr h
    · simp only [if_neg hk, List.mem_append, List.mem_singleton, List.mem_cons]
      tauto

/-- The `dedupKeys` keeps exactly the keys of its input. -/
theorem mem_dedupKeys (ks : List String) (x : String) :
    x ∈ dedupKeys ks ↔ x ∈ ks := by
  rw [dedupKeys, mem_dedup_foldl]
  simp

/-- The deduplication fold preserves freedom from duplicates. -/
theorem nodup_dedup_foldl (ks : List String) (acc : List String)
    (h : acc.Nodup) :
    (ks.foldl (fun acc k => if k ∈ acc then acc else acc ++ [k]) acc).Nodup := by
  induction ks generalizing acc with
  | nil => exact h
  | cons k rest ih =>
    rw [List.foldl_cons]
    apply ih
    by_cases hk : k ∈ acc
    · rwa [if_pos hk]
    · rw [if_neg hk, List.nodup_append]
      exact ⟨h, List.nodup_singleton k, by simp [hk]⟩

/-- The `dedupKeys` output has no duplicates. -/
theorem nodup_dedupKeys (ks : List String) : (dedupKeys ks).Nodup :=
  nodup_dedup_foldl ks [] List.nodup_nil

/-- The `dedupKeys` over one appended key. -/
theorem dedupKeys_append (ks : List String) (k : String) :
    dedupKeys (ks ++ [k])
      = if k ∈ dedupKeys ks then dedupKeys ks else dedupKeys ks ++ [k] := by
  simp [dedupKeys, List.foldl_append]

/-- Appending a report for a fresh field adds a new entry at the end. -/
theorem addError_of_not_mem (m : Dict (List String)) (f e : String)
    (h : ∀ p ∈ m, p.1 ≠ f) :
    BaseForm.addError m f e = m ++ [(f, [e])] := by
  induction m with
  | nil => rfl
  | cons p rest ih =>
    obtain ⟨k, es⟩ := p
    have hk : k ≠ f := h (k, es) (List.mem_cons_self _ _)
    simp only [BaseForm.addError, if_neg hk, List.cons_append, List.cons.injEq,
      true_and]
    exact ih (fun q hq => h q (List.mem_cons_of_mem _ hq))

/-- Appending a report for an already-present field extends exactly that
entry of a duplicate-free keyed map. -/
theorem addError_map (ks : List String) (F : String → List String)
    (f e : String) (hmem : f ∈ ks) (hnd : ks.Nodup) :
    BaseForm.addError (ks.map (fun g => (g, F g))) f e
      = ks.map (fun g => (g, if g = f then F g ++ [e] else F g)) := by
  induction ks with
  | nil => cases hmem
  | cons k rest ih =>
    rw [List.map_cons, List.map_cons]
    obtain ⟨hknot, hndr⟩ := List.nodup_cons.mp hnd
    by_cases hk : k = f
    · subst hk
      simp only [BaseForm.addError]
      simp only [if_pos trivial, List.cons.injEq, true_and]
      apply List.map_congr_left
      intro a ha
      have ha' : a ≠ k := fun h => hknot (h ▸ ha)
      rw [if_neg ha']
    · have hf : f ∈ rest := by
        rcases List.mem_cons.mp hmem with h | h
        · exact absurd h.symm hk
        · exact h
      simp only [BaseForm.addError, if_neg hk, List.cons.injEq, true_and]
      exact ih hf hndr

/-- Violations never mention a field outside the reported key set. -/
theorem filter_fst_eq_nil (l : List (String × String)) (f : String)
    (h : f ∉ l.map Prod.fst) :
    l.filter (fun p => p.1 == f) = [] := by
  induction l with
  | nil => rfl
  | cons p rest ih =>
    simp only [List.map_cons, List.mem_cons] at h
    push_neg at h
    obtain ⟨h1, h2⟩ := h
    have h1a : p.1 ≠ f := Ne.symm h1
    simp [List.filter_cons, h1a, ih h2]

/-- The grouping loop of `BaseForm.errors` computes exactly the
spec-side regrouping: one entry per reported field in order of first
report, each holding the violations of that field in report order (duplicate
reports merged, never overwritten). -/
theorem groupErrors_eq_spec (l : List (String × String)) :
    BaseForm.groupErrors l = groupErrorsSpec l := by
  induction l using List.reverseRecOn with
  | nil => rfl
  | append_singleton l p ih =>
    obtain ⟨f, e⟩ := p
    have hstep : BaseForm.groupErrors (l ++ [(f, e)])
        = BaseForm.addError (BaseForm.groupErrors l) f e := by
      simp [BaseForm.groupErrors, List.foldl_append]
    have hkeys : (l ++ [(f, e)]).map Prod.fst = l.map Prod.fst ++ [f] := by
      simp
    rw [hstep, ih]
    by_cases hf : f ∈ l.map Prod.fst
    · rw [groupErrorsSpec,
        addError_map _ _ f e ((mem_dedupKeys _ _).mpr hf) (nodup_dedupKeys _),
        groupErrorsSpec, hkeys, dedupKeys_append,
        if_pos ((mem_dedupKeys _ _).mpr hf)]
      apply List.map_congr_left
      intro g hg
      rw [List.filter_append]
      by_cases hgf : g = f
      · subst hgf
        simp
      · have hfg : ¬ (f == g) = true := by simp [Ne.symm hgf]
        simp [List.filter_cons, hfg, hgf]
    · rw [groupErrorsSpec, addError_of_not_mem, groupErrorsSpec, hkeys,
        dedupKeys_append, if_neg (fun h => hf ((mem_dedupKeys _ _).mp h)),
        List.map_append]
      · congr 1
        · apply List.map_congr_left
          intro g hg
          have hg' : g ∈ l.map Prod.fst := (mem_dedupKeys _ _).mp hg
          have hgf : g ≠ f := fun h => hf (h ▸ hg')
          have hfg : ¬ (f == g) = true := by simp [Ne.symm hgf]
          rw [List.filter_append]
          simp [List.filter_cons, hfg]
        · simp [List.filter_append, filter_fst_eq_nil l f hf]
      · intro p hp
        obtain ⟨g, hg, rfl⟩ := List.mem_map.mp hp
        exact fun h => hf (h ▸ (mem_dedupKeys _ _).mp hg)

/-- C5: `errors` catches only the validation failure — when `clean`
raises anything that is not a `ValidationError`, `errors` propagates
exactly that error — and on a validation failure it returns the stored
violation set regrouped as the spec describes: a mapping from field name
to the ordered list of violations of that field, in order of first
report, with repeated reports for the same field merged into one ordered
list rather than overwriting. -/
theorem errors_catch_and_regroup (v : Validator) (s : FormState) :
    (∀ ex s', BaseForm.clean v s = (Except.error ex, s') →
       (∀ ve, ex ≠ PyExc.validation ve) →
       BaseForm.errors v s = (Except.error ex, s'))
    ∧ (∀ ve s', BaseForm.clean v s = (Except.error (PyExc.validation ve), s') →
       BaseForm.errors v s
         = (Except.ok (some (groupErrorsSpec ve.raw)), s')) := by
  constructor
  · intro ex s' hcl hne
    cases ex
    case validation ve => exact absurd rfl (hne ve)
    all_goals simp [BaseForm.errors, hcl]
  · intro ve s' hcl
    have hst := (clean_validation_cases v s ve s' hcl).1
    simp [BaseForm.errors, hcl, hst, groupErrors_eq_spec]

/-- C5 witness: a validator reporting `age`, then `name`, then `age`
again yields the merged, order-preserving grouping, and a
non-validation error propagates out of `errors`. -/
theorem errors_catch_and_regroup_witness :
    BaseForm.errors dupValidator s0
      = (Except.ok (some [("age", ["range", "min"]), ("name", ["required"])]),
         s0dup)
    ∧ BaseForm.errors rendererExploded s0
      = (Except.error (PyExc.other "RuntimeError"), s0) := by
  constructor
  · have h := (errors_catch_and_regroup dupValidator s0).2 dupErr s0dup rfl
    rw [h]
    rfl
  · exact (errors_catch_and_regroup rendererExploded s0).1
      (PyExc.other "RuntimeError") s0 rfl (fun ve h => PyExc.noConfusion h)

/-- C2: widget resolution consults the explicit per-field override in
`__config__.widget_classes` first and falls back to type-tag inference
only when no override exists; the inference chain tests `bool` before
`int` / `float` (`bool` satisfies the numeric `issubclass` test too), so
a boolean field without an override resolves to `Checkbox`, never
`Number`, while an integer field with an explicit `Checkbox` override
resolves to `Checkbox`. -/
theorem widget_class_resolution (cfg : FormConfig) (fieldName : String)
    (fi : FieldInfo) :
    (∀ wc, dictGet cfg.widget_classes fieldName = some wc →
       BoundField.widget_class cfg fieldName fi = wc)
    ∧ (dictGet cfg.widget_classes fieldName = none →
       fi.tyTag = TypeTag.bool →
       BoundField.widget_class cfg fieldName fi = WidgetClass.checkbox
       ∧ BoundField.widget_class cfg fieldName fi ≠ WidgetClass.number
       ∧ BoundField.isSubclassIntFloat fi.tyTag = true)
    ∧ (fi.tyTag = TypeTag.int →
       dictGet cfg.widget_classes fieldName = some WidgetClass.checkbox →
       BoundField.widget_class cfg fieldName fi = WidgetClass.checkbox) := by
  refine ⟨?_, ?_, ?_⟩
  · intro wc h
    simp [BoundField.widget_class, h]
  · intro h ht
    simp [BoundField.widget_class, h, ht, BoundField.isSubclassBool,
      BoundField.isSubclassIntFloat]
  · intro ht h
    simp [BoundField.widget_class, h]

/-- C2 witness: the boolean field `active` infers `Checkbox` (though its
tag passes the numeric subclass test), and the overridden integer field
`age` resolves to `Checkbox`, not `Number`. -/
theorem widget_class_resolution_witness :
    BoundField.widget_class cfg1 "active" activeField = WidgetClass.checkbox
    ∧ BoundField.widget_class cfgOverride "age" ageField
        = WidgetClass.checkbox :=
  ⟨((widget_class_resolution cfg1 "active" activeField).2.1 rfl rfl).1,
   (widget_class_resolution cfgOverride "age" ageField).2.2 rfl rfl⟩

/-- C9: supplying an initial typed value that is not an instance of the
declared schema type makes the constructor fail immediately with the
configuration `ValueError` and no form state is produced; with a
conforming initial the constructor succeeds with an unbound memo; and
the check is never repeated during validation — `clean` can only
surface a `ValueError` that the validation engine itself raised. -/
theorem init_rejects_bad_initial (cfg : FormConfig) (data : Option Data)
    (i : BaseModel) :
    (i.tyTag ≠ cfg.modelTag →
       BaseForm.init cfg data (some i)
         = Except.error (PyExc.valueError
             ("Initial must be of type " ++ cfg.modelTag ++ " (Config.model)")))
    ∧ (i.tyTag = cfg.modelTag →
       ∃ s, BaseForm.init cfg data (some i) = Except.ok s
         ∧ s._error = none ∧ s._model = none)
    ∧ (∀ (v : Validator) (s : FormState) (msg : String) (r : Except PyExc Unit)
        (s' : FormState),
        BaseForm.clean v s = (r, s') →
        r = Except.error (PyExc.valueError msg) →
        v (BaseForm.process_data (BaseForm.get_model_data s))
          = Except.error (PyExc.valueError msg)) := by
  refine ⟨?_, ?_, ?_⟩
  · intro h
    simp [BaseForm.init, h]
  · intro h
    refine ⟨{ _data := data, _error := none, _model := none,
              _initial := some i,
              _model_data := BaseForm.get_model_data
                { _data := data, _error := none, _model := none,
                  _initial := some i, _model_data := [] } }, ?_, rfl, rfl⟩
    simp [BaseForm.init, h]
  · intro v s msg r s' hcl hr
    subst hr
    cases hE : s._error with
    | some e0 => simp [BaseForm.clean, hE] at hcl
    | none =>
      cases hM : s._model with
      | some m => simp [BaseForm.clean, hE, hM] at hcl
      | none =>
        cases hval : v (BaseForm.process_data (BaseForm.get_model_data s)) with
        | ok m => simp [BaseForm.clean, hE, hM, hval] at hcl
        | error ex =>
          cases ex
          all_goals
            simp only [BaseForm.clean, hE, hM, hval, Prod.mk.injEq,
              Except.error.injEq] at hcl
          case valueError m2 =>
            rw [hcl.1]
          all_goals exact absurd hcl.1 (by simp)

/-- C9 witness: an initial of runtime type `N` against declared model
`M` makes construction fail with the configuration error. -/
theorem init_rejects_bad_initial_witness :
    BaseForm.init cfg1 none (some badInitial)
      = Except.error (PyExc.valueError
          ("Initial must be of type M (Config.model)")) :=
  (init_rejects_bad_initial cfg1 none badInitial).1 (by decide)

/-- C10: for a declared field that is absent from the effective data,
`value_of` returns the declared default of the field (which pydantic stores
as `None` when no default is declared) instead of failing; a form
constructed with no raw data and no initial value has an empty
`_model_data`, so every lookup on it is of this kind; and a bound
field value accessor is exactly this lookup. -/
theorem value_of_returns_default (cfg : FormConfig) (f : String)
    (fi : FieldInfo) :
    (∀ s : FormState, dictGet cfg.fields f = some fi →
       dictGet s._model_data f = none →
       BaseForm.value_of cfg s f = Except.ok fi.default)
    ∧ BaseForm.init cfg none none
        = Except.ok { _data := none, _error := none, _model := none,
                      _initial := none, _model_data := [] }
    ∧ (∀ st : FState, dictGet cfg.fields f = some fi →
       dictGet st.form._model_data f = none →
       Form.bound_value cfg st f = Except.ok fi.default) := by
  refine ⟨?_, rfl, ?_⟩
  · intro s hdecl habs
    simp [BaseForm.value_of, hdecl, habs]
  · intro st hdecl habs
    simp [Form.bound_value, BaseForm.value_of, hdecl, habs]

/-- C10 witness: on a form with no data at all, the undefaulted declared
field `name` looks up to `None` rather than failing. -/
theorem value_of_returns_default_witness :
    BaseForm.value_of cfg1
      { _data := none, _error := none, _model := none, _initial := none,
        _model_data := [] } "name" = Except.ok Value.none :=
  (value_of_returns_default cfg1 "name" nameField).1
    { _data := none, _error := none, _model := none, _initial := none,
      _model_data := [] } rfl rfl

/-- C7: for a numeric field whose constrained type declares inclusive
bounds, the resolved number widget carries the stringified lower bound
as its `min` attribute and the stringified upper bound as its `max`
attribute; when the type declares no bounds, both attributes stay `None`
in the attribute dictionary and are omitted from the rendered attribute
set. -/
theorem number_widget_bounds (cfg : FormConfig) (s : FormState)
    (fieldName : String) (fi : FieldInfo) (v : Value)
    (hval : BaseForm.value_of cfg s fieldName = Except.ok v)
    (hkw : dictGet cfg.widget_kwargs fieldName = none) :
    (∀ g l, fi.ge = some g → fi.le = some l →
       number_attr cfg s fieldName fi "min"
         = Except.ok (some (Value.str (pyStr (Value.int g))))
       ∧ number_attr cfg s fieldName fi "max"
         = Except.ok (some (Value.str (pyStr (Value.int l)))))
    ∧ (fi.ge = none → fi.le = none →
       number_attr cfg s fieldName fi "min" = Except.ok (some Value.none)
       ∧ number_attr cfg s fieldName fi "max" = Except.ok (some Value.none)
       ∧ ∃ ks, number_rendered_keys cfg s fieldName fi = Except.ok ks
           ∧ "min" ∉ ks ∧ "max" ∉ ks) := by
  constructor
  · intro g l hge hle
    constructor <;>
      simp [number_attr, BoundField.widget_kwargs, hval, hkw,
        BoundField.additional_kwargs, Number.additional_kwargs, hge, hle,
        dictUpdate, dictSet, dictGet, Number.ofKwargs, Number.attrs,
        Number.toDict, Widget.format_value, BoundField.prefix_name]
  · intro hge hle
    refine ⟨?_, ?_, ?_⟩
    · simp [number_attr, BoundField.widget_kwargs, hval, hkw,
        BoundField.additional_kwargs, Number.additional_kwargs, hge, hle,
        dictUpdate, dictSet, dictGet, Number.ofKwargs, Number.attrs,
        Number.toDict, Widget.format_value, BoundField.prefix_name]
    · simp [number_attr, BoundField.widget_kwargs, hval, hkw,
        BoundField.additional_kwargs, Number.additional_kwargs, hge, hle,
        dictUpdate, dictSet, dictGet, Number.ofKwargs, Number.attrs,
        Number.toDict, Widget.format_value, BoundField.prefix_name]
    · cases hr : fi.required with
      | false =>
        refine ⟨["name", "id", "type", "value"], ?_, by decide, by decide⟩
        simp [number_rendered_keys, BoundField.widget_kwargs, hval, hkw,
          BoundField.additional_kwargs, Number.additional_kwargs, hge, hle,
          dictUpdate, dictSet, dictGet, Number.ofKwargs, Number.attrs,
          Number.toDict, Widget.format_value, BoundField.prefix_name,
          StringRenderer.presentAttrs, hr]
      | true =>
        refine ⟨["name", "id", "required", "type", "value"], ?_,
          by decide, by decide⟩
        simp [number_rendered_keys, BoundField.widget_kwargs, hval, hkw,
          BoundField.additional_kwargs, Number.additional_kwargs, hge, hle,
          dictUpdate, dictSet, dictGet, Number.ofKwargs, Number.attrs,
          Number.toDict, Widget.format_value, BoundField.prefix_name,
          StringRenderer.presentAttrs, hr]

/-- C7 witness: the bounded integer field `age` (bounds 0 and 120) gets
`min="0"` / `max="120"`, and the unbounded field `name` rendered as a
number widget emits neither attribute. -/
theorem number_widget_bounds_witness :
    number_attr cfg1 s0 "age" ageField "min"
      = Except.ok (some (Value.str "0"))
    ∧ number_attr cfg1 s0 "age" ageField "max"
      = Except.ok (some (Value.str "120"))
    ∧ ∃ ks, number_rendered_keys cfg1 s0 "name" nameField = Except.ok ks
        ∧ "min" ∉ ks ∧ "max" ∉ ks :=
  ⟨((number_widget_bounds cfg1 s0 "age" ageField (Value.int 200) rfl rfl).1
      0 120 rfl rfl).1,
   ((number_widget_bounds cfg1 s0 "age" ageField (Value.int 200) rfl rfl).1
      0 120 rfl rfl).2,
   ((number_widget_bounds cfg1 s0 "name" nameField Value.none rfl rfl).2
      rfl rfl).2.2⟩

/-- Looking up the key just set returns the value just set. -/
theorem dictGet_dictSet_self {a : Type} (m : Dict a) (k : String) (v : a) :
    dictGet (dictSet m k v) k = some v := by
  induction m with
  | nil => simp [dictSet, dictGet]
  | cons p rest ih =>
    obtain ⟨k0, v0⟩ := p
    by_cases h : k0 = k
    · simp [dictSet, dictGet, h]
    · simp [dictSet, dictGet, h, ih]

/-- The `dictSet` replaces in place or appends one fresh key at the end. -/
theorem dictSet_keys {a : Type} (m : Dict a) (k : String) (v : a) :
    (dictSet m k v).map Prod.fst
      = if k ∈ m.map Prod.fst then m.map Prod.fst
        else m.map Prod.fst ++ [k] := by
  induction m with
  | nil => simp [dictSet]
  | cons p rest ih =>
    obtain ⟨k0, v0⟩ := p
    by_cases h : k0 = k
    · subst h
      simp [dictSet]
    · by_cases hm : k ∈ rest.map Prod.fst
      · simp [dictSet, h, ih, hm, Ne.symm h]
      · simp [dictSet, h, ih, hm, Ne.symm h]

/-- The `dictSet` keeps the key list free of duplicates. -/
theorem nodup_keys_dictSet {a : Type} (m : Dict a) (k : String) (v : a)
    (h : (m.map Prod.fst).Nodup) :
    ((dictSet m k v).map Prod.fst).Nodup := by
  rw [dictSet_keys]
  by_cases hm : k ∈ m.map Prod.fst
  · rwa [if_pos hm]
  · rw [if_neg hm, List.nodup_append]
    exact ⟨h, List.nodup_singleton _, by simp [hm]⟩

/-- A computed `widget` is served from the `cached_property` slot ever
after, even if the raw form data is replaced. -/
theorem widget_of_stable (cfg : FormConfig) (st : FState) (x : String)
    (w : WidgetInst) (st₂ : FState)
    (h : Form.widget_of cfg st x = (Except.ok w, st₂)) :
    ∀ d, Form.widget_of cfg (Form.set_data st₂ d) x
      = (Except.ok w, Form.set_data st₂ d) := by
  intro d
  cases hb : dictGet st.bound x with
  | none => simp [Form.widget_of, hb] at h
  | some bf =>
    cases hc : bf.widgetCache with
    | some w0 =>
      simp only [Form.widget_of, hb, hc, Prod.mk.injEq, Except.ok.injEq] at h
      obtain ⟨h1, h2⟩ := h
      subst h1
      subst h2
      simp [Form.widget_of, Form.set_data, hb, hc]
    | none =>
      cases hf : dictGet cfg.fields x with
      | none => simp [Form.widget_of, hb, hc, hf] at h
      | some fi =>
        cases hkw : BoundField.widget_kwargs cfg st.form
            (BoundField.widget_class cfg x fi) x fi with
        | error e => simp [Form.widget_of, hb, hc, hf, hkw] at h
        | ok kw =>
          simp only [Form.widget_of, hb, hc, hf, hkw, Prod.mk.injEq,
            Except.ok.injEq] at h
          obtain ⟨h1, h2⟩ := h
          subst h1
          subst h2
          simp [Form.widget_of, Form.set_data, dictGet_dictSet_self]

/-- C6: a successful `bind_field(x)` is cached — every later
`bind_field(x)` on the resulting state, under any validator at all,
returns the very same `BoundField` entry (same identity stamp) and
leaves the state untouched; the cache keeps at most one entry per field
name; and a widget computed from a cached bound field never changes,
even when the underlying raw data is replaced afterwards. -/
theorem bind_field_cache_identity (v : Validator) (cfg : FormConfig)
    (st : FState) (x : String) (bf : BF) (st₁ : FState)
    (h : Form.bind_field v cfg st x = (Except.ok bf, st₁)) :
    (∀ v' : Validator, Form.bind_field v' cfg st₁ x = (Except.ok bf, st₁))
    ∧ ((st.bound.map Prod.fst).Nodup → (st₁.bound.map Prod.fst).Nodup)
    ∧ (∀ w st₂, Form.widget_of cfg st₁ x = (Except.ok w, st₂) →
        ∀ d, Form.widget_of cfg (Form.set_data st₂ d) x
          = (Except.ok w, Form.set_data st₂ d)) := by
  refine ⟨?_, ?_, fun w st₂ hw => widget_of_stable cfg st₁ x w st₂ hw⟩
  · intro v'
    cases hb : dictGet st.bound x with
    | some bf0 =>
      simp only [Form.bind_field, hb, Prod.mk.injEq, Except.ok.injEq] at h
      obtain ⟨h1, h2⟩ := h
      subst h1
      subst h2
      simp [Form.bind_field, hb]
    | none =>
      rcases hcl : BaseForm.clean v st.form with ⟨r, f1⟩
      cases r with
      | error e => simp [Form.bind_field, hb, hcl] at h
      | ok u =>
        cases hf : dictGet cfg.fields x with
        | none => simp [Form.bind_field, hb, hcl, hf] at h
        | some fi =>
          simp only [Form.bind_field, hb, hcl, hf, Prod.mk.injEq,
            Except.ok.injEq] at h
          obtain ⟨h1, h2⟩ := h
          subst h1
          subst h2
          simp [Form.bind_field, dictGet_dictSet_self]
  · intro hnd
    cases hb : dictGet st.bound x with
    | some bf0 =>
      simp only [Form.bind_field, hb, Prod.mk.injEq, Except.ok.injEq] at h
      obtain ⟨h1, h2⟩ := h
      subst h2
      exact hnd
    | none =>
      rcases hcl : BaseForm.clean v st.form with ⟨r, f1⟩
      cases r with
      | error e => simp [Form.bind_field, hb, hcl] at h
      | ok u =>
        cases hf : dictGet cfg.fields x with
        | none => simp [Form.bind_field, hb, hcl, hf] at h
        | some fi =>
          simp only [Form.bind_field, hb, hcl, hf, Prod.mk.injEq,
            Except.ok.injEq] at h
          obtain ⟨h1, h2⟩ := h
          rw [← h2]
          exact nodup_keys_dictSet _ _ _ hnd

/-- C6 witness: the second `bind_field("age")` — under a different
validator — returns the same cached entry and leaves the state alone,
and the cache keys stay duplicate-free. -/
theorem bind_field_cache_identity_witness :
    Form.bind_field failValidator cfg1 st1 "age" = (Except.ok bf0, st1)
    ∧ (st1.bound.map Prod.fst).Nodup :=
  ⟨(bind_field_cache_identity okValidator cfg1 st0 "age" bf0 st1 rfl).1
      failValidator,
   (bind_field_cache_identity okValidator cfg1 st0 "age" bf0 st1 rfl).2.1
      (by decide)⟩

/-- Attribute lookup distributes over concatenated class layers. -/
theorem classAttr_append (c1 c2 : ConfigModel.ConfigClass) (k : String) :
    ConfigModel.classAttr (c1 ++ c2) k
      = match ConfigModel.classAttr c1 k with
        | some v => some v
        | none => ConfigModel.classAttr c2 k := by
  induction c1 with
  | nil => simp [ConfigModel.classAttr]
  | cons l rest ih =>
    simp only [List.cons_append, ConfigModel.classAttr]
    cases h : dictGet l k with
    | some v => simp [h]
    | none => simp [h, ih]

/-- Every form class carries at least its `Config` layers over
`BaseConfig`. -/
theorem effConfig_length (f : ConfigModel.FormDef) :
    2 ≤ (ConfigModel.effConfig f).length := by
  induction f with
  | form => decide
  | derive p decl ih =>
    have hne : ConfigModel.effConfig p ≠ ConfigModel.BaseConfigClass := by
      intro h
      rw [h] at ih
      exact absurd ih (by decide)
    cases decl with
    | none =>
      simp only [ConfigModel.effConfig, ConfigModel.inherit_config,
        if_neg hne, List.length_append]
      omega
    | some d =>
      simp only [ConfigModel.effConfig, ConfigModel.inherit_config,
        if_neg hne]
      have hne2 : [d] ≠ ConfigModel.effConfig p ++ ConfigModel.BaseConfigClass := by
        intro h
        have hl := congrArg List.length h
        simp only [List.length_append, List.length_singleton] at hl
        omega
      rw [if_neg hne2]
      simp only [List.length_append, List.length_singleton]
      omega

/-- A form class never merges into the bare `BaseConfig`. -/
theorem effConfig_ne_base (p : ConfigModel.FormDef) :
    ConfigModel.effConfig p ≠ ConfigModel.BaseConfigClass := by
  intro h
  have hl := effConfig_length p
  rw [h] at hl
  exact absurd hl (by decide)

/-- Unfolding `__config__` for a subclass that declares a `Config`. -/
theorem effConfig_derive_some (p : ConfigModel.FormDef)
    (d : ConfigModel.ConfigLayer) :
    ConfigModel.effConfig (ConfigModel.FormDef.derive p (some d))
      = [d] ++ (ConfigModel.effConfig p ++ ConfigModel.BaseConfigClass) := by
  have hne := effConfig_ne_base p
  have hne2 : [d] ≠ ConfigModel.effConfig p ++ ConfigModel.BaseConfigClass := by
    intro h
    have hl := congrArg List.length h
    have hp := effConfig_length p
    simp only [List.length_append, List.length_singleton] at hl
    omega
  simp only [ConfigModel.effConfig, ConfigModel.inherit_config,
    if_neg hne, if_neg hne2]

/-- Unfolding `__config__` for a subclass without its own `Config`. -/
theorem effConfig_derive_none (p : ConfigModel.FormDef) :
    ConfigModel.effConfig (ConfigModel.FormDef.derive p none)
      = ConfigModel.effConfig p ++ ConfigModel.BaseConfigClass := by
  have hne := effConfig_ne_base p
  simp only [ConfigModel.effConfig, ConfigModel.inherit_config, if_neg hne]

/-- C8: configuration inheritance resolves per individual key with the
most-derived declaration winning.  A key declared in the subclass
`Config` wins; a key it does not declare falls through to the parent
chain unchanged.  Concretely, with `A` extending `Form` and setting
`prefix = "a_"` (plus another key `extra`): `B` extending `A` without a
`Config` keeps prefix `"a_"`; `B` setting `prefix = "b_"` gets `"b_"`
while the `extra` key of `A` stays in effect; `Form` itself has the
default empty prefix. -/
theorem config_inheritance_per_key (p : ConfigModel.FormDef)
    (d : ConfigModel.ConfigLayer) (k : String) :
    (∀ val, dictGet d k = some val →
       ConfigModel.classAttr
         (ConfigModel.effConfig (ConfigModel.FormDef.derive p (some d))) k
         = some val)
    ∧ (dictGet d k = none →
       ConfigModel.classAttr
         (ConfigModel.effConfig (ConfigModel.FormDef.derive p (some d))) k
         = ConfigModel.classAttr (ConfigModel.effConfig p) k)
    ∧ ConfigModel.classAttr
        (ConfigModel.effConfig (ConfigModel.FormDef.derive p none)) k
        = ConfigModel.classAttr (ConfigModel.effConfig p) k
    ∧ ConfigModel.prefixAttr ConfigModel.formA = some "a_"
    ∧ ConfigModel.prefixAttr ConfigModel.formBNoOverride = some "a_"
    ∧ ConfigModel.prefixAttr ConfigModel.formBOverride = some "b_"
    ∧ ConfigModel.classAttr
        (ConfigModel.effConfig ConfigModel.formBOverride) "extra" = some "A"
    ∧ ConfigModel.prefixAttr ConfigModel.FormDef.form = some "" := by
  refine ⟨?_, ?_, ?_, by decide, by decide, by decide, by decide, by decide⟩
  · intro val hval
    rw [effConfig_derive_some, classAttr_append]
    simp [ConfigModel.classAttr, hval]
  · intro hnone
    rw [effConfig_derive_some, classAttr_append, classAttr_append]
    simp only [ConfigModel.classAttr, hnone]
    cases hc : ConfigModel.classAttr (ConfigModel.effConfig p) k with
    | some v => simp [hc]
    | none => simp [hc, ConfigModel.BaseConfigClass, ConfigModel.classAttr,
        dictGet]
  · rw [effConfig_derive_none, classAttr_append]
    cases hc : ConfigModel.classAttr (ConfigModel.effConfig p) k with
    | some v => simp [hc]
    | none => simp [hc, ConfigModel.BaseConfigClass, ConfigModel.classAttr,
        dictGet]

/-- C8 witness: overriding `prefix` in a declared `Config` layer wins on
that key for the concrete class `B`. -/
theorem config_inheritance_per_key_witness :
    ConfigModel.classAttr
      (ConfigModel.effConfig ConfigModel.formBOverride) "prefix"
      = some "b_" :=
  (config_inheritance_per_key ConfigModel.formA [("prefix", "b_")]
    "prefix").1 "b_" rfl

/-- C3: at the concrete datetime 2020-01-02 03:04:05, the widget value
formatter raises `TypeError` (the source hands the builtin `format`
function, not the `self.format` string, to `strftime`) instead of
producing the display-format string; moreover, while the declared `Date`
and `Time` formats do produce `YYYY-MM-DD` and `HH:MM:SS`, the declared
`DateTime` format string produces `2020-01-02T03\x7b04:05` — with a
brace in place of the first colon — and not the claimed
`YYYY-MM-DDTHH:MM:SS`. -/
theorem strftime_display_format_bug :
    StrftimeMixin.format_value (some dt0) (some dt0)
        = Except.error PyExc.typeError
    ∧ strftimeStr dt0 Date.format = "2020-01-02"
    ∧ strftimeStr dt0 Time.format = "03:04:05"
    ∧ strftimeStr dt0 DateTime.format = "2020-01-02T03\x7b04:05"
    ∧ strftimeStr dt0 DateTime.format ≠ "2020-01-02T03:04:05" := by
  refine ⟨rfl, by decide, by decide, by decide, by decide⟩

end PydanticForms
